import Mathlib

/-!
Verification of the AI Operation Scheduler of Chrome-Mnemonic.

Shallow embedding of the scheduler components:
- `EnhancedErrorHandler` (src/services/enhanced-error-handler.js)
- `RateLimiter` (src/unnamed/part_004)
- `AIRequestQueue` (src/services/request-queue.js)
- `PerformanceMonitor` (src/services/performance-monitor.js)
- `AIService.withAISession` (src/services/ai-service.js)

JavaScript numbers holding millisecond timestamps are modelled as `Int`
(the limiter subtracts them), counters and durations as `Nat`.
`Math.random()` based jitter is modelled as an explicit parameter ranging
over the values the source can produce.  Asynchronous functions that can
resolve or reject are modelled as `Except` values.
-/

namespace ChromeMnemonic

/-- Lower-cases the characters of a string; models the effect of a
case-insensitive (`/i`) regular-expression test on the message. -/
def lowerChars (s : String) : List Char := s.data.map Char.toLower

/-- Substring test on character lists: true iff `pat` occurs contiguously in
the second argument.  Models a plain-text alternative of a JS regex. -/
def containsSub (pat : List Char) : List Char → Bool
  | [] => pat.isEmpty
  | c :: rest => pat.isPrefixOf (c :: rest) || containsSub pat rest

/-- True iff an `Except` value is a success (a resolved promise). -/
def isOk {ε α : Type} : Except ε α → Bool
  | .ok _ => true
  | .error _ => false

/-- The error payload of an `Except` value, if any. -/
def errOf {ε α : Type} : Except ε α → Option ε
  | .ok _ => none
  | .error e => some e

namespace EnhancedErrorHandler

/-- The error taxonomy of `EnhancedErrorHandler.Types`
(enhanced-error-handler.js lines 14-21). -/
inductive ErrorType where
  | RATE_LIMIT
  | NETWORK_ERROR
  | TIMEOUT
  | VALIDATION
  | AI_UNAVAILABLE
  | UNKNOWN
deriving DecidableEq, Repr

/-- An `EnhancedError` value: the classified message plus its type
(enhanced-error-handler.js lines 3-11; the `metadata` object is always
empty in `classify` and is omitted). -/
structure EnhancedError where
  message : String
  type : ErrorType
deriving DecidableEq, Repr

/-- The three input shapes `classify` distinguishes: a falsy error, an
already-enhanced error (`error.isEnhanced`), and a raw error whose
message string drives the pattern tests. -/
inductive ErrorInput where
  | null
  | enhanced (e : EnhancedError)
  | raw (message : String)

/-- Test of `/rate limit|too many requests|429/i` (line 31). -/
def rateLimitTest (m : List Char) : Bool :=
  containsSub "rate limit".data m || containsSub "too many requests".data m ||
    containsSub "429".data m

/-- Test of `/network|fetch failed|failed to fetch|net::ERR/i` (line 34). -/
def networkTest (m : List Char) : Bool :=
  containsSub "network".data m || containsSub "fetch failed".data m ||
    containsSub "failed to fetch".data m || containsSub "net::err".data m

/-- Test of `/timeout|timed out|took too long/i` (line 37). -/
def timeoutTest (m : List Char) : Bool :=
  containsSub "timeout".data m || containsSub "timed out".data m ||
    containsSub "took too long".data m

/-- Test of `/invalid|missing|required|malformed/i` (line 40). -/
def validationTest (m : List Char) : Bool :=
  containsSub "invalid".data m || containsSub "missing".data m ||
    containsSub "required".data m || containsSub "malformed".data m

/-- Test of `/ai.*(unavailable|disabled|not available)/i` (line 43): the
two letters `ai` followed, anywhere later, by one of the three words. -/
def aiUnavailableTest : List Char → Bool
  | [] => false
  | c :: rest =>
      ("ai".data.isPrefixOf (c :: rest) &&
        (containsSub "unavailable".data rest.tail ||
          containsSub "disabled".data rest.tail ||
          containsSub "not available".data rest.tail)) ||
      aiUnavailableTest rest

/-- The type assigned by the chain of regex tests in `classify`
(enhanced-error-handler.js lines 31-47). -/
def classifyType (message : String) : ErrorType :=
  let m := lowerChars message
  if rateLimitTest m then .RATE_LIMIT
  else if networkTest m then .NETWORK_ERROR
  else if timeoutTest m then .TIMEOUT
  else if validationTest m then .VALIDATION
  else if aiUnavailableTest m then .AI_UNAVAILABLE
  else .UNKNOWN

/-- `EnhancedErrorHandler.classify` (lines 23-48): falsy errors become
`UNKNOWN`, enhanced errors pass through, raw messages are classified by
the pattern chain. -/
def classify : ErrorInput → EnhancedError
  | .null => ⟨"Unknown error", .UNKNOWN⟩
  | .enhanced e => e
  | .raw message => ⟨message, classifyType message⟩

/-- `EnhancedErrorHandler.shouldRetry` (lines 50-53). -/
def shouldRetry (t : ErrorType) : Bool :=
  t == .NETWORK_ERROR || t == .TIMEOUT || t == .RATE_LIMIT

/-- `EnhancedErrorHandler.backoffDelayMs` (lines 55-64); `jitter` stands
for `Math.floor(Math.random() * 150)`, a value in `[0, 149]`. -/
def backoffDelayMs (t : ErrorType) (attempt baseMs jitter : Nat) : Nat :=
  if t = .RATE_LIMIT then min 10000 (baseMs * 2 ^ attempt) + jitter
  else if t = .NETWORK_ERROR ∨ t = .TIMEOUT then
    min 5000 (baseMs * 2 ^ attempt) + jitter
  else 0

/-- The classification table in the precedence order stated by the spec:
RateLimited, NetworkError, Timeout, Validation, ServiceUnavailable. -/
def patternTable : List ((List Char → Bool) × ErrorType) :=
  [(rateLimitTest, .RATE_LIMIT), (networkTest, .NETWORK_ERROR),
   (timeoutTest, .TIMEOUT), (validationTest, .VALIDATION),
   (aiUnavailableTest, .AI_UNAVAILABLE)]

/-- Spec-side classifier: first-match over `patternTable`, defaulting to
`UNKNOWN` when no pattern matches. -/
def firstMatchType (message : String) : ErrorType :=
  let m := lowerChars message
  match patternTable.find? (fun p => p.1 m) with
  | some p => p.2
  | none => .UNKNOWN

end EnhancedErrorHandler

/-- One rate-limit policy from `this.config` (part_004 lines 10-17). -/
structure RateConfig where
  maxConcurrent : Nat
  minInterval : Nat
  maxPerMinute : Nat
deriving DecidableEq, Repr

/-- The per-API-type state of the rate limiter (part_004 lines 4-7).  The
three JS `Map`s are modelled as functions into `Option`; reads apply the
source defaults `|| 0` and `|| []` via `getD`. -/
structure RateLimiter where
  activeRequests : String → Option Nat
  lastRequestTime : String → Option Int
  requestHistory : String → Option (List Int)

namespace RateLimiter

/-- The rate limiting configuration table (part_004 lines 10-17). -/
def config (apiType : String) : Option RateConfig :=
  if apiType = "LanguageModel" then some ⟨2, 1000, 30⟩
  else if apiType = "Summarizer" then some ⟨2, 1500, 20⟩
  else if apiType = "Writer" then some ⟨2, 1000, 25⟩
  else if apiType = "Rewriter" then some ⟨1, 2000, 15⟩
  else if apiType = "Proofreader" then some ⟨1, 2000, 10⟩
  else if apiType = "Translator" then some ⟨2, 1000, 20⟩
  else none

/-- `RateLimiter.canMakeRequest` (part_004 lines 21-48); `now` stands for
`Date.now()`. -/
def canMakeRequest (rl : RateLimiter) (now : Int) (apiType : String) : Bool :=
  match config apiType with
  | none => true
  | some cfg =>
    let activeCount := (rl.activeRequests apiType).getD 0
    let lastRequest := (rl.lastRequestTime apiType).getD 0
    let requestHistory := (rl.requestHistory apiType).getD []
    if cfg.maxConcurrent ≤ activeCount then false
    else if now - lastRequest < (cfg.minInterval : Int) then false
    else
      let oneMinuteAgo := now - 60000
      let recentRequests := requestHistory.filter (fun time => oneMinuteAgo < time)
      if cfg.maxPerMinute ≤ recentRequests.length then false
      else true

/-- `RateLimiter.getWaitTime` (part_004 lines 51-69). -/
def getWaitTime (rl : RateLimiter) (now : Int) (apiType : String) : Int :=
  match config apiType with
  | none => 0
  | some cfg =>
    let lastRequest := (rl.lastRequestTime apiType).getD 0
    let requestHistory := (rl.requestHistory apiType).getD []
    let intervalWait := max 0 ((cfg.minInterval : Int) - (now - lastRequest))
    let oneMinuteAgo := now - 60000
    let recentRequests := requestHistory.filter (fun time => oneMinuteAgo < time)
    let rateLimitWait :=
      if cfg.maxPerMinute ≤ recentRequests.length then
        (recentRequests.headD 0 + 60000) - now
      else 0
    max intervalWait rateLimitWait

/-- The per-API-type mutable state touched by `queueRequest`,
`processQueue` and `executeRequest` (part_004 lines 72-144), projected to
one API type: in-flight count, queue length, last admission time and
admission history. -/
structure TypeState where
  active : Nat
  queued : Nat
  lastRequestTime : Int
  history : List Int
deriving DecidableEq, Repr

/-- The operations that mutate a `TypeState`.  `enqueue` is the push in
`queueRequest` (lines 76-81); `processQueue now` is the drain loop (lines
96-110) together with the synchronous tracking prefix of each launched
`executeRequest` (lines 113-123), all sharing the timestamp `now`;
`complete` is the `finally` decrement of one execution (line 139); `reset`
clears the maps (lines 191-196). -/
inductive RLOp where
  | enqueue
  | processQueue (now : Int)
  | complete
  | reset

/-- One step of the rate limiter state machine.  In `processQueue`,
`availableSlots = config.maxConcurrent - activeCount` is a JS number that
can be negative, so it is computed in `Int`; the loop launches
`min(availableSlots, queue.length)` requests and each launched
`executeRequest` increments the active count, stamps `lastRequestTime`
and appends to the history.  `complete` models
`Math.max(0, activeCount - 1)`, which is exactly `Nat` subtraction. -/
def rlStep (cfg : RateConfig) (s : TypeState) : RLOp → TypeState
  | .enqueue => { s with queued := s.queued + 1 }
  | .processQueue now =>
      let availableSlots : Int := (cfg.maxConcurrent : Int) - (s.active : Int)
      let launched := min availableSlots.toNat s.queued
      { active := s.active + launched,
        queued := s.queued - launched,
        lastRequestTime := if launched = 0 then s.lastRequestTime else now,
        history := s.history ++ List.replicate launched now }
  | .complete => { s with active := s.active - 1 }
  | .reset => ⟨0, 0, 0, []⟩

/-- The state of a fresh `RateLimiter` for one API type: empty maps. -/
def rlInit : TypeState := ⟨0, 0, 0, []⟩

/-- State for the C5 counterexample: thirty admissions recorded exactly
60000 ms before the probe time 100000. -/
def windowEdgeState : RateLimiter :=
  ⟨fun _ => none, fun _ => none,
   fun apiType => if apiType = "LanguageModel" then
       some (List.replicate 30 40000) else none⟩

end RateLimiter

namespace AIRequestQueue

open EnhancedErrorHandler

/-- What `AIRequestQueue.executeRequest` decides to do with a request once
its work has settled (request-queue.js lines 116-150): resolve it, put it
back at the front of the queue for a later retry, or reject it. -/
inductive ExecDecision where
  | completed (attempts : Nat)
  | requeuedFront (attempts : Nat)
  | rejected (e : EnhancedError) (attempts : Nat)
deriving DecidableEq, Repr

/-- The control flow of `AIRequestQueue.executeRequest` (request-queue.js
lines 87-152) for one execution: `request.attempts++` (line 90), then on
success the request is completed (lines 116-125); on failure it is pushed
back to the front of the queue when `attempts < maxRetries` (lines
136-143) and rejected with the error otherwise (lines 145-150).  The
error raised by `withAISession` work is a classified `EnhancedError`
(ai-service.js lines 200-203). -/
def executeRequestStep (maxRetries attempts : Nat)
    (result : Except EnhancedError Unit) : ExecDecision :=
  let attempts := attempts + 1
  match result with
  | .ok _ => .completed attempts
  | .error e =>
      if attempts < maxRetries then .requeuedFront attempts
      else .rejected e attempts

/-- Runs `executeRequestStep` repeatedly for a request whose work fails
with `e` on every attempt, starting from attempt counter `attempts`, with
enough fuel; returns the number of executions together with the final
decision. -/
def runAlwaysFailing (e : EnhancedError) (maxRetries : Nat) :
    Nat → Nat → Nat × ExecDecision
  | 0, attempts => (0, .rejected e attempts)
  | fuel + 1, attempts =>
      match executeRequestStep maxRetries attempts (.error e) with
      | .requeuedFront a =>
          let r := runAlwaysFailing e maxRetries fuel a
          (r.1 + 1, r.2)
      | d => (1, d)

/-- A fresh request (attempts = 0, request-queue.js line 45) whose work
always fails with `e`, driven until the queue stops retrying it. -/
def runRetryingToExhaustion (e : EnhancedError) (maxRetries : Nat) :
    Nat × ExecDecision :=
  runAlwaysFailing e maxRetries (maxRetries + 1) 0

/-- `this.retryDelay` (request-queue.js line 8). -/
def retryDelay : Nat := 2000

/-- The delay before a retried attempt is put back on the queue:
`this.retryDelay * request.attempts` (request-queue.js line 143). -/
def retryScheduleDelayMs (attempts : Nat) : Nat := retryDelay * attempts

/-- A queued request as far as ordering is concerned: its numeric priority
rank (request-queue.js lines 9-14 and 37) and its submission sequence
number. -/
structure QRequest where
  priority : Nat
  seq : Nat
deriving DecidableEq, Repr

/-- The effect of `this.queue.push(request)` followed by
`this.queue.sort((a, b) => a.priority - b.priority)` (request-queue.js
lines 50-51) on a queue that is already priority-sorted: `Array.sort` is
stable (ES2019), so the pushed request moves forward past exactly the
entries of strictly greater priority and lands after all entries with
priority less than or equal to its own. -/
def enqueue (r : QRequest) : List QRequest → List QRequest
  | [] => [r]
  | x :: xs => if x.priority ≤ r.priority then x :: enqueue r xs else r :: x :: xs

/-- The scheduler state: the pending queue, the next submission sequence
number, and the requests taken for execution so far, in order. -/
structure SchedState where
  queue : List QRequest
  nextSeq : Nat
  executed : List QRequest
deriving DecidableEq, Repr

/-- Operations on the scheduler state: `add priority` is a submission
(request-queue.js lines 22-63); `shift` is one iteration of the `process`
loop taking the head (lines 73-75); `retryUnshift r` is the retry path
`this.queue.unshift(request)` executed by the timer callback (line 141),
which puts a previously submitted request back at the absolute front. -/
inductive QueueOp where
  | add (priority : Nat)
  | shift
  | retryUnshift (r : QRequest)

/-- Whether an operation is the retry re-insertion. -/
def QueueOp.isRetry : QueueOp → Bool
  | .retryUnshift _ => true
  | _ => false

/-- One scheduler step. -/
def applyOp (s : SchedState) : QueueOp → SchedState
  | .add p =>
      { s with queue := enqueue ⟨p, s.nextSeq⟩ s.queue, nextSeq := s.nextSeq + 1 }
  | .shift =>
      match s.queue with
      | [] => s
      | r :: rest => { s with queue := rest, executed := s.executed ++ [r] }
  | .retryUnshift r => { s with queue := r :: s.queue }

/-- The scheduler before any submission. -/
def schedInit : SchedState := ⟨[], 0, []⟩

/-- Service order: `a` is served before `b` when `a` has a strictly lower
priority rank, or the same rank and an earlier submission. -/
def lexLt (a b : QRequest) : Prop :=
  a.priority < b.priority ∨ (a.priority = b.priority ∧ a.seq < b.seq)

instance (a b : QRequest) : Decidable (lexLt a b) := by
  unfold lexLt
  infer_instance

/-- The scheduler invariant: the queue is sorted in service order and every
queued request carries a sequence number below the next one. -/
def SchedInv (s : SchedState) : Prop :=
  s.queue.Pairwise lexLt ∧ ∀ r ∈ s.queue, r.seq < s.nextSeq

end AIRequestQueue

/-- The aggregated statistics per operation name (performance-monitor.js
lines 104-116 give the initial values).  `minDuration` starts at JS
`Infinity`, modelled as the top element; averages are rationals since the
source divides. -/
structure OperationMetrics where
  count : Nat
  totalDuration : Nat
  averageDuration : ℚ
  minDuration : WithTop Nat
  maxDuration : Nat
  successCount : Nat
  failureCount : Nat
  totalMemoryDelta : Int
  averageMemoryDelta : ℚ
  lastExecuted : Nat
deriving DecidableEq

/-- The initial aggregate entry (performance-monitor.js lines 105-115). -/
def initialMetrics : OperationMetrics :=
  ⟨0, 0, 0, ⊤, 0, 0, 0, 0, 0, 0⟩

/-- One history entry (performance-monitor.js lines 87-91). -/
structure PMRecord where
  name : String
  duration : Nat
  memoryDelta : Int
  success : Bool
  error : Option String
  timestamp : Nat
deriving DecidableEq, Repr

/-- The monitor state: per-name aggregates (`this.metrics`), the bounded
history, and the set of active operations keyed by name and start time. -/
structure PerformanceMonitor where
  metrics : String → Option OperationMetrics
  operationHistory : List PMRecord
  activeOperations : String × Nat → Bool

namespace PerformanceMonitor

/-- `this.maxHistorySize` (performance-monitor.js line 6). -/
def maxHistorySize : Nat := 1000

/-- `PerformanceMonitor.updateAggregatedMetrics` (performance-monitor.js
lines 103-134).  `startTime` is the `timestamp` field of the metrics
object handed in by `measureOperation`. -/
def updateAggregatedMetrics (pm : PerformanceMonitor) (operationName : String)
    (duration : Nat) (memoryDelta : Int) (success : Bool) (startTime : Nat) :
    PerformanceMonitor :=
  let aggregated := (pm.metrics operationName).getD initialMetrics
  let count := aggregated.count + 1
  let totalDuration := aggregated.totalDuration + duration
  let totalMemoryDelta := aggregated.totalMemoryDelta + memoryDelta
  let updated : OperationMetrics :=
    { count := count
      totalDuration := totalDuration
      averageDuration := (totalDuration : ℚ) / (count : ℚ)
      minDuration := min aggregated.minDuration (duration : WithTop Nat)
      maxDuration := max aggregated.maxDuration duration
      successCount := aggregated.successCount + (if success then 1 else 0)
      failureCount := aggregated.failureCount + (if success then 0 else 1)
      totalMemoryDelta := totalMemoryDelta
      averageMemoryDelta := (totalMemoryDelta : ℚ) / (count : ℚ)
      lastExecuted := startTime }
  { pm with metrics := fun n => if n = operationName then some updated else pm.metrics n }

/-- `PerformanceMonitor.recordOperation` (performance-monitor.js lines
85-100): append the record stamped with the current time `recordedAt`,
trim the history to its last `maxHistorySize` entries, then update the
aggregate for the name. -/
def recordOperation (pm : PerformanceMonitor) (operationName : String)
    (duration : Nat) (memoryDelta : Int) (success : Bool)
    (error : Option String) (startTime recordedAt : Nat) :
    PerformanceMonitor :=
  let record : PMRecord :=
    ⟨operationName, duration, memoryDelta, success, error, recordedAt⟩
  let history := pm.operationHistory ++ [record]
  let trimmed :=
    if maxHistorySize < history.length then
      history.drop (history.length - maxHistorySize)
    else history
  updateAggregatedMetrics { pm with operationHistory := trimmed }
    operationName duration memoryDelta success startTime

/-- `PerformanceMonitor.measureOperation` (performance-monitor.js lines
26-82): register the active operation, run `fn` (its settled outcome,
duration and memory delta are parameters here), record the operation with
`success` set by the branch taken, unregister the active operation in the
`finally`, and rethrow the original error if `fn` failed, otherwise
return its result. -/
def measureOperation {α : Type} (pm : PerformanceMonitor)
    (operationName : String) (outcome : Except String α) (duration : Nat)
    (memoryDelta : Int) (startTime recordedAt : Nat) :
    PerformanceMonitor × Except String α :=
  let started :=
    { pm with activeOperations :=
        fun k => if k = (operationName, startTime) then true
                 else pm.activeOperations k }
  let recorded :=
    match outcome with
    | .ok _ =>
        recordOperation started operationName duration memoryDelta true
          none startTime recordedAt
    | .error e =>
        recordOperation started operationName duration memoryDelta false
          (some e) startTime recordedAt
  let finished :=
    { recorded with activeOperations :=
        fun k => if k = (operationName, startTime) then false
                 else recorded.activeOperations k }
  (finished, outcome)

end PerformanceMonitor

namespace AIService

open EnhancedErrorHandler

/-- Session lifecycle events of one `withAISession` work execution. -/
inductive SessionEvent where
  | rateLimitSleep
  | sessionCreated
  | sessionDestroyed
deriving DecidableEq, Repr

/-- The work function that `withAISession` submits to the request queue
(ai-service.js lines 170-215), as a trace of session events plus the
settled outcome.  `session` starts as `null`; if the rate limiter denies
admission the function first sleeps (lines 175-179).  If
`createSession` rejects (lines 182-185), the catch classifies and
rethrows (lines 200-203) and the `finally` sees `session` still null, so
no destroy happens.  If creation succeeds, the callback runs (lines
188-191); on success the result is returned, on failure the classified
error is rethrown, and on either path the `finally` (lines 204-215) calls
`destroySession` exactly once.  A queue-level timeout (request-queue.js
lines 101-103) rejects the race but leaves this execution running to its
`finally`, so its trace is that of the failing or succeeding callback. -/
def withAISessionRun {α : Type} (admissible : Bool)
    (createResult : Except String Unit) (callbackResult : Except String α) :
    List SessionEvent × Except EnhancedError α :=
  let pre : List SessionEvent := if admissible then [] else [.rateLimitSleep]
  match createResult with
  | .error e => (pre, .error (classify (.raw e)))
  | .ok _ =>
    match callbackResult with
    | .ok v => (pre ++ [.sessionCreated, .sessionDestroyed], .ok v)
    | .error e =>
        (pre ++ [.sessionCreated, .sessionDestroyed], .error (classify (.raw e)))

/-- Rate-limit bookkeeping events of `RateLimiter.executeRequest`. -/
inductive RLEvent where
  | admissionRecorded
  | completionRecorded
deriving DecidableEq, Repr

/-- `RateLimiter.executeRequest` (part_004 lines 113-144) as a trace: the
synchronous prefix increments the active count and stamps the admission
(lines 116-123); the `try` resolves or the `catch` rejects with the same
outcome; the `finally` (lines 137-143) decrements the active count
exactly once on both paths. -/
def executeRequestEvents {α : Type} (outcome : Except String α) :
    List RLEvent × Except String α :=
  match outcome with
  | .ok v => ([.admissionRecorded, .completionRecorded], .ok v)
  | .error e => ([.admissionRecorded, .completionRecorded], .error e)

end AIService

end ChromeMnemonic

namespace ChromeMnemonic

open EnhancedErrorHandler

/-- Claim C4: `classify` is a pure total function; on a raw error it keeps
the message and assigns the type by first match over the case-insensitive
pattern table in the order RateLimited, NetworkError, Timeout, Validation,
ServiceUnavailable, with Unknown as the default; and the assigned type
depends only on the lower-cased message (case-insensitivity). -/
theorem C4_classify_first_match :
    (∀ message, classify (.raw message) = ⟨message, firstMatchType message⟩) ∧
    (∀ s t : String, lowerChars s = lowerChars t →
      (classify (.raw s)).type = (classify (.raw t)).type) := by
  constructor
  · intro message
    simp only [classify, classifyType, firstMatchType, patternTable, List.find?]
    cases h1 : rateLimitTest (lowerChars message) <;>
      cases h2 : networkTest (lowerChars message) <;>
        cases h3 : timeoutTest (lowerChars message) <;>
          cases h4 : validationTest (lowerChars message) <;>
            cases h5 : aiUnavailableTest (lowerChars message) <;>
              simp [h1, h2, h3, h4, h5]
  · intro s t h
    simp only [classify, classifyType, h]

/-- Witness for C4: the hypothesis of the case-insensitivity part holds at
a concrete pair of strings differing only in case. -/
theorem C4_classify_first_match_witness :
    lowerChars "Request TIMED OUT" = lowerChars "request timed out" ∧
    (classify (.raw "Request TIMED OUT")).type =
      (classify (.raw "request timed out")).type :=
  ⟨by decide, C4_classify_first_match.2 "Request TIMED OUT" "request timed out" (by decide)⟩

open RateLimiter in
/-- Helper for C2: one step preserves the concurrency bound. -/
theorem rlStep_active_le (cfg : RateConfig) (s : TypeState) (op : RLOp)
    (h : s.active ≤ cfg.maxConcurrent) :
    (rlStep cfg s op).active ≤ cfg.maxConcurrent := by
  cases op <;> simp only [rlStep] <;> omega

open RateLimiter in
/-- Helper for C2: the bound is preserved along any operation sequence. -/
theorem rlFoldl_active_le (cfg : RateConfig) (ops : List RLOp) (s : TypeState)
    (h : s.active ≤ cfg.maxConcurrent) :
    (ops.foldl (rlStep cfg) s).active ≤ cfg.maxConcurrent := by
  induction ops generalizing s with
  | nil => exact h
  | cons op rest ih => exact ih _ (rlStep_active_le cfg s op h)

open RateLimiter in
/-- Claim C2: for every API type with a configured policy, along any
sequence of enqueue, drain, completion and reset operations starting from
the fresh state, the number of in-flight executions never exceeds the
maxConcurrent of the policy. -/
theorem C2_active_never_exceeds_maxConcurrent :
    ∀ (apiType : String) (cfg : RateConfig), config apiType = some cfg →
    ∀ ops : List RLOp,
      (ops.foldl (rlStep cfg) rlInit).active ≤ cfg.maxConcurrent := by
  intro apiType cfg _h ops
  exact rlFoldl_active_le cfg ops rlInit (by simp [rlInit])

open RateLimiter in
/-- Witness for C2 at the configured type LanguageModel and a concrete
burst of five submissions with interleaved drains and completions. -/
theorem C2_active_never_exceeds_maxConcurrent_witness :
    config "LanguageModel" = some ⟨2, 1000, 30⟩ ∧
    (([.enqueue, .enqueue, .enqueue, .processQueue 0, .enqueue, .enqueue,
       .processQueue 50, .complete, .processQueue 100, .complete, .complete,
       .processQueue 200] : List RLOp).foldl
        (rlStep ⟨2, 1000, 30⟩) rlInit).active ≤ 2 :=
  ⟨by decide,
   C2_active_never_exceeds_maxConcurrent "LanguageModel" ⟨2, 1000, 30⟩ (by decide) _⟩

open RateLimiter in
/-- Claim C5 as amended: for a configured API type, `canMakeRequest` is
true iff the in-flight count is below maxConcurrent, at least minInterval
has elapsed since the last admission, and fewer than maxPerMinute recorded
timestamps are strictly newer than `now - 60000` (the source filters with
`time > oneMinuteAgo`, so a timestamp exactly 60000 ms old is outside the
window). -/
theorem C5_canMakeRequest_iff :
    ∀ (rl : RateLimiter) (now : Int) (apiType : String) (cfg : RateConfig),
      config apiType = some cfg →
      (canMakeRequest rl now apiType = true ↔
        ((rl.activeRequests apiType).getD 0 < cfg.maxConcurrent ∧
         (cfg.minInterval : Int) ≤ now - (rl.lastRequestTime apiType).getD 0 ∧
         ((rl.requestHistory apiType).getD []).countP
           (fun t => decide (now - 60000 < t)) < cfg.maxPerMinute)) := by
  intro rl now apiType cfg h
  simp only [canMakeRequest, h]
  rw [List.countP_eq_length_filter]
  split_ifs with h1 h2 h3
  · simp only [Bool.false_eq_true, false_iff]
    intro hc
    exact absurd hc.1 (by omega)
  · simp only [Bool.false_eq_true, false_iff]
    intro hc
    exact absurd hc.2.1 (by omega)
  · simp only [Bool.false_eq_true, false_iff]
    intro hc
    exact absurd hc.2.2 (by omega)
  · simp only [true_iff]
    exact ⟨by omega, by omega, by omega⟩

open RateLimiter in
/-- Witness for C5: the amended equivalence applied at LanguageModel with
one in-flight request and a history of three recent admissions. -/
theorem C5_canMakeRequest_iff_witness :
    config "LanguageModel" = some ⟨2, 1000, 30⟩ ∧
    (canMakeRequest
        ⟨fun _ => some 1, fun _ => some 95000,
         fun _ => some [97000, 96000, 95000]⟩ 100000 "LanguageModel" = true ↔
      ((some 1).getD 0 < 2 ∧
       ((1000 : Nat) : Int) ≤ 100000 - (some (95000 : Int)).getD 0 ∧
       ((some [(97000 : Int), 96000, 95000]).getD []).countP
         (fun t => decide ((100000 : Int) - 60000 < t)) < 30)) :=
  ⟨by decide,
   C5_canMakeRequest_iff
     ⟨fun _ => some 1, fun _ => some 95000, fun _ => some [97000, 96000, 95000]⟩
     100000 "LanguageModel" ⟨2, 1000, 30⟩ (by decide)⟩

open RateLimiter in
/-- Counterexample to claim C5 as stated: with thirty admission timestamps
at exactly `now - 60000`, all thirty fall within the closed window from
`now - 60000` to `now`, so the claimed three-part condition is false, yet
`canMakeRequest` returns true because the source counts only timestamps
strictly greater than `now - 60000`. -/
theorem C5_window_boundary_counterexample :
    ¬ (canMakeRequest windowEdgeState 100000 "LanguageModel" = true ↔
       ((windowEdgeState.activeRequests "LanguageModel").getD 0 < 2 ∧
        ((1000 : Nat) : Int) ≤
          100000 - (windowEdgeState.lastRequestTime "LanguageModel").getD 0 ∧
        ((windowEdgeState.requestHistory "LanguageModel").getD []).countP
          (fun t => decide ((100000 : Int) - 60000 ≤ t ∧ t ≤ 100000)) < 30)) := by
  decide

open RateLimiter in
/-- Claim C10: an API type outside the six configured ones has no policy,
so `canMakeRequest` is true and `getWaitTime` is zero in every state. -/
theorem C10_unconfigured_no_limits :
    ∀ (rl : RateLimiter) (now : Int) (apiType : String),
      apiType ∉ ["LanguageModel", "Summarizer", "Writer", "Rewriter",
                 "Proofreader", "Translator"] →
      canMakeRequest rl now apiType = true ∧ getWaitTime rl now apiType = 0 := by
  intro rl now apiType h
  simp only [List.mem_cons, List.mem_singleton, not_or] at h
  obtain ⟨h1, h2, h3, h4, h5, h6⟩ := h
  constructor <;> simp [canMakeRequest, getWaitTime, config, h1, h2, h3, h4, h5, h6]

open RateLimiter in
/-- Witness for C10: the unknown API type used by non-AI requests is
admitted immediately in a state with a busy history for other types. -/
theorem C10_unconfigured_no_limits_witness :
    ("unknown" ∉ ["LanguageModel", "Summarizer", "Writer", "Rewriter",
                  "Proofreader", "Translator"]) ∧
    canMakeRequest ⟨fun _ => some 5, fun _ => some 99999,
      fun _ => some (List.replicate 40 99999)⟩ 100000 "unknown" = true ∧
    getWaitTime ⟨fun _ => some 5, fun _ => some 99999,
      fun _ => some (List.replicate 40 99999)⟩ 100000 "unknown" = 0 :=
  ⟨by decide,
   C10_unconfigured_no_limits
     ⟨fun _ => some 5, fun _ => some 99999, fun _ => some (List.replicate 40 99999)⟩
     100000 "unknown" (by decide)⟩

end ChromeMnemonic

namespace ChromeMnemonic

open EnhancedErrorHandler AIRequestQueue

/-- Counterexample to claim C3 as stated: a request with retry budget left
(`maxRetries = 2`, first attempt) fails with an error classified as
VALIDATION, which `shouldRetry` marks permanent, yet `executeRequest` puts
it back at the front of the queue for another attempt instead of rejecting
it: the queue never consults the classification. -/
theorem C3_permanent_error_retried_counterexample :
    shouldRetry (classify (.raw "Invalid input")).type = false ∧
    executeRequestStep 2 0 (.error (classify (.raw "Invalid input"))) =
      .requeuedFront 1 ∧
    executeRequestStep 2 0 (.error (classify (.raw "Invalid input"))) ≠
      .rejected (classify (.raw "Invalid input")) 1 := by
  decide

/-- Claim C3 as amended: after a failed execution the queue re-queues the
request iff attempt budget remains (`attempts + 1 < maxRetries` after the
increment), regardless of how the error was classified; otherwise it
rejects with the error itself.  The decision is identical for any two
errors, retryable or permanent. -/
theorem C3_retry_depends_only_on_budget :
    ∀ (maxRetries attempts : Nat) (e e' : EnhancedError),
      ((∃ a, executeRequestStep maxRetries attempts (.error e) =
          .requeuedFront a) ↔ attempts + 1 < maxRetries) ∧
      (executeRequestStep maxRetries attempts (.error e) =
          .rejected e (attempts + 1) ↔ maxRetries ≤ attempts + 1) ∧
      ((∃ a, executeRequestStep maxRetries attempts (.error e) =
          .requeuedFront a) ↔
        (∃ a, executeRequestStep maxRetries attempts (.error e') =
          .requeuedFront a)) := by
  intro maxRetries attempts e e'
  by_cases hlt : attempts + 1 < maxRetries
  · simp [executeRequestStep, hlt]
  · simp [executeRequestStep, hlt]
    omega

/-- Helper for C6: with enough fuel, a request whose work fails on every
attempt is executed `max 1 (maxRetries - attempts)` more times and ends
rejected with the error at the final attempt count. -/
theorem runAlwaysFailing_spec (e : EnhancedError) (maxRetries : Nat) :
    ∀ (fuel attempts : Nat), maxRetries ≤ attempts + fuel → 1 ≤ fuel →
      runAlwaysFailing e maxRetries fuel attempts =
        (max 1 (maxRetries - attempts),
         .rejected e (max (attempts + 1) maxRetries)) := by
  intro fuel
  induction fuel with
  | zero => intro attempts _ h1; omega
  | succ k ih =>
    intro attempts hle _
    by_cases hlt : attempts + 1 < maxRetries
    · have hk : maxRetries ≤ (attempts + 1) + k := by omega
      have hk1 : 1 ≤ k := by omega
      have := ih (attempts + 1) hk hk1
      simp only [runAlwaysFailing, executeRequestStep, if_pos hlt, this,
        Prod.mk.injEq]
      refine ⟨by omega, ?_⟩
      congr 1
      omega
    · simp only [runAlwaysFailing, executeRequestStep, if_neg hlt,
        Prod.mk.injEq]
      refine ⟨by omega, ?_⟩
      congr 1
      omega

/-- Claim C6 as amended: for `maxAttempts = N ≥ 1`, a request whose work
fails on every attempt is executed exactly N times and then rejected with
the error (at attempt count N); with `maxAttempts = 0` the request is
still executed once before rejection, because the budget check runs only
after the first execution. -/
theorem C6_exactly_n_attempts_then_rejected :
    ∀ (e : EnhancedError) (n : Nat), 1 ≤ n →
      runRetryingToExhaustion e n = (n, .rejected e n) := by
  intro e n hn
  rw [runRetryingToExhaustion,
    runAlwaysFailing_spec e n (n + 1) 0 (by omega) (by omega)]
  simp only [Prod.mk.injEq]
  refine ⟨by omega, ?_⟩
  congr 1
  omega

/-- Witness for C6: a work failing every time with a retryable Timeout
classification and `maxAttempts = 3` runs exactly three times. -/
theorem C6_exactly_n_attempts_then_rejected_witness :
    (1 ≤ 3) ∧
    runRetryingToExhaustion (classify (.raw "Request timeout")) 3 =
      (3, .rejected (classify (.raw "Request timeout")) 3) :=
  ⟨by decide,
   C6_exactly_n_attempts_then_rejected (classify (.raw "Request timeout")) 3
     (by decide)⟩

/-- Counterexample to claim C6 as stated: at `maxAttempts = 0` the always
failing request (with a retryable Timeout classification) is executed once
and then rejected, not zero times as the universal claim would require. -/
theorem C6_zero_budget_counterexample :
    shouldRetry (classify (.raw "Request timeout")).type = true ∧
    (runRetryingToExhaustion (classify (.raw "Request timeout")) 0).1 = 1 ∧
    (runRetryingToExhaustion (classify (.raw "Request timeout")) 0).1 ≠ 0 := by
  decide

/-- Claim C7, evaluated against the code: the delay the queue schedules
before re-inserting a retried request is `retryDelay * attempts`, i.e.
2000, 4000, 6000, 8000 ms after attempts 1 to 4 — a linear ramp, with no
jitter and no dependence on the error kind — and no choice of `baseMs`
and `capMs` can present the delays after attempts 2, 3 and 4 as
`min(capMs, baseMs * 2 ^ attempt) + jitter` with jitter in `[0, 150]`.
The exponential formula exists only in
`EnhancedErrorHandler.backoffDelayMs`, which the queue never calls. -/
theorem C7_retry_delay_is_linear_not_exponential :
    (retryScheduleDelayMs 1 = 2000 ∧ retryScheduleDelayMs 2 = 4000 ∧
     retryScheduleDelayMs 3 = 6000 ∧ retryScheduleDelayMs 4 = 8000) ∧
    (∀ attempt baseMs jitter : Nat,
      backoffDelayMs .TIMEOUT attempt baseMs jitter =
        min 5000 (baseMs * 2 ^ attempt) + jitter ∧
      backoffDelayMs .RATE_LIMIT attempt baseMs jitter =
        min 10000 (baseMs * 2 ^ attempt) + jitter) ∧
    ¬ ∃ baseMs capMs : Nat, ∀ a, 2 ≤ a → a ≤ 4 →
        ∃ j ≤ 150, retryScheduleDelayMs a = min capMs (baseMs * 2 ^ a) + j := by
  refine ⟨⟨by decide, by decide, by decide, by decide⟩, ?_, ?_⟩
  · intro attempt baseMs jitter
    constructor <;> simp [backoffDelayMs]
  · rintro ⟨b, c, hform⟩
    obtain ⟨j2, hj2, e2⟩ := hform 2 (by omega) (by omega)
    obtain ⟨j3, hj3, e3⟩ := hform 3 (by omega) (by omega)
    obtain ⟨j4, hj4, e4⟩ := hform 4 (by omega) (by omega)
    norm_num [retryScheduleDelayMs, retryDelay] at e2 e3 e4
    omega

end ChromeMnemonic

namespace ChromeMnemonic

open AIRequestQueue

/-- Helper for C8: membership in an enqueued queue. -/
theorem mem_enqueue (r x : QRequest) :
    ∀ q : List QRequest, x ∈ enqueue r q ↔ x = r ∨ x ∈ q := by
  intro q
  induction q with
  | nil => simp [enqueue]
  | cons y ys ih =>
    by_cases h : y.priority ≤ r.priority
    · simp only [enqueue, if_pos h, List.mem_cons, ih]
      tauto
    · simp only [enqueue, if_neg h, List.mem_cons]

/-- Helper for C8: enqueueing a request with a fresh (largest) sequence
number into a service-order-sorted queue keeps the queue sorted. -/
theorem enqueue_pairwise (r : QRequest) :
    ∀ q : List QRequest, q.Pairwise lexLt → (∀ x ∈ q, x.seq < r.seq) →
      (enqueue r q).Pairwise lexLt := by
  intro q
  induction q with
  | nil => intro _ _; simp [enqueue, List.pairwise_singleton]
  | cons y ys ih =>
    intro hp hseq
    rw [List.pairwise_cons] at hp
    by_cases h : y.priority ≤ r.priority
    · rw [enqueue, if_pos h, List.pairwise_cons]
      refine ⟨?_, ih hp.2 fun x hx => hseq x (List.mem_cons_of_mem y hx)⟩
      intro z hz
      rcases (mem_enqueue r z ys).mp hz with hzr | hzys
      · subst hzr
        rcases Nat.lt_or_ge y.priority z.priority with hlt | hge
        · exact Or.inl hlt
        · exact Or.inr ⟨by omega, hseq y (List.mem_cons_self y ys)⟩
      · exact hp.1 z hzys
    · rw [enqueue, if_neg h, List.pairwise_cons]
      refine ⟨?_, List.pairwise_cons.mpr hp⟩
      intro z hz
      rcases List.mem_cons.mp hz with hzy | hzys
      · subst hzy
        exact Or.inl (by omega)
      · rcases hp.1 z hzys with hlt | ⟨heq, _⟩
        · exact Or.inl (by omega)
        · exact Or.inl (by omega)

/-- Helper for C8: the scheduler invariant is preserved by every operation
other than the retry re-insertion. -/
theorem applyOp_schedInv (s : SchedState) (op : QueueOp)
    (hinv : SchedInv s) (hop : op.isRetry = false) :
    SchedInv (applyOp s op) := by
  cases op with
  | add p =>
    refine ⟨enqueue_pairwise _ _ hinv.1 fun x hx => hinv.2 x hx, ?_⟩
    intro r hr
    rcases (mem_enqueue _ r _).mp hr with hrn | hrq
    · subst hrn; simp [applyOp]
    · have := hinv.2 r hrq
      simp only [applyOp]
      omega
  | shift =>
    cases hq : s.queue with
    | nil => simpa [applyOp, hq] using hinv
    | cons r rest =>
      have happ : applyOp s .shift =
          { s with queue := rest, executed := s.executed ++ [r] } := by
        simp [applyOp, hq]
      rw [happ]
      obtain ⟨h1, h2⟩ := hinv
      rw [hq, List.pairwise_cons] at h1
      refine ⟨h1.2, ?_⟩
      intro x hx
      exact h2 x (by rw [hq]; exact List.mem_cons_of_mem r hx)
  | retryUnshift r => simp [QueueOp.isRetry] at hop

/-- Claim C8 as amended: as long as only submissions and head-takes occur
(no retry re-insertion), the pending queue is at all times sorted by
priority rank with FIFO order (submission sequence) inside each rank;
since the process loop always takes the head (`this.queue.shift()`), any
two simultaneously queued requests are therefore served lower-rank first,
and equal ranks in submission order.  The retry path is excluded: it puts
a retried request at the absolute front regardless of priority. -/
theorem C8_priority_fifo_without_retry :
    ∀ ops : List QueueOp, (∀ op ∈ ops, op.isRetry = false) →
      ((ops.foldl applyOp schedInit).queue).Pairwise lexLt := by
  have main : ∀ (ops : List QueueOp) (s : SchedState), SchedInv s →
      (∀ op ∈ ops, op.isRetry = false) → SchedInv (ops.foldl applyOp s) := by
    intro ops
    induction ops with
    | nil => intro s hs _; exact hs
    | cons op rest ih =>
      intro s hs hops
      exact ih _ (applyOp_schedInv s op hs (hops op (List.mem_cons_self op rest)))
        fun o ho => hops o (List.mem_cons_of_mem op ho)
  intro ops hops
  exact (main ops schedInit ⟨List.Pairwise.nil, by simp [schedInit]⟩ hops).1

/-- Witness for C8: four submissions with mixed priorities leave the queue
sorted by priority then submission order. -/
theorem C8_priority_fifo_without_retry_witness :
    (∀ op ∈ ([.add 3, .add 1, .add 2, .add 1] : List QueueOp),
      op.isRetry = false) ∧
    ((([.add 3, .add 1, .add 2, .add 1] : List QueueOp).foldl applyOp
        schedInit).queue).Pairwise lexLt :=
  ⟨by decide,
   C8_priority_fifo_without_retry [.add 3, .add 1, .add 2, .add 1] (by decide)⟩

/-- Counterexample to claim C8 as stated: a low-priority request (rank 4,
submitted first) fails and is re-inserted by the retry timer at the
absolute front while a critical request (rank 1) is still queued; the next
head-take executes the rank-4 request first even though a rank-1 request
is queued beside it, so service order is not strictly by priority rank. -/
theorem C8_retry_unshift_counterexample :
    (([.add 4, .shift, .add 1, .add 1, .shift,
       .retryUnshift ⟨4, 0⟩] : List QueueOp).foldl applyOp schedInit).queue =
      [⟨4, 0⟩, ⟨1, 2⟩] ∧
    (applyOp (([.add 4, .shift, .add 1, .add 1, .shift,
       .retryUnshift ⟨4, 0⟩] : List QueueOp).foldl applyOp schedInit)
        .shift).executed.getLast? = some ⟨4, 0⟩ ∧
    (⟨1, 2⟩ : QRequest) ∈
      (applyOp (([.add 4, .shift, .add 1, .add 1, .shift,
        .retryUnshift ⟨4, 0⟩] : List QueueOp).foldl applyOp schedInit)
          .shift).queue ∧
    (⟨1, 2⟩ : QRequest).priority < (⟨4, 0⟩ : QRequest).priority := by
  decide

end ChromeMnemonic

namespace ChromeMnemonic

open PerformanceMonitor

/-- Claim C9: `measureOperation` returns exactly the outcome of the wrapped
function — the value on success, the original error re-raised on failure,
never swallowed or converted — and on both paths it appends one
performance record (with the matching success flag and error payload,
evicting oldest entries only when the bounded history overflows) and
updates the aggregate statistics for the name: count up by one, success or
failure count up by one according to the outcome, last-executed stamped
with the start time. -/
theorem C9_measure_records_and_rethrows :
    ∀ {α : Type} (pm : PerformanceMonitor) (name : String)
      (outcome : Except String α) (duration : Nat) (memoryDelta : Int)
      (startTime recordedAt : Nat),
      (measureOperation pm name outcome duration memoryDelta startTime
        recordedAt).2 = outcome ∧
      (∃ k ≤ pm.operationHistory.length,
        (measureOperation pm name outcome duration memoryDelta startTime
            recordedAt).1.operationHistory =
          pm.operationHistory.drop k ++
            [⟨name, duration, memoryDelta, isOk outcome, errOf outcome,
              recordedAt⟩]) ∧
      (((measureOperation pm name outcome duration memoryDelta startTime
          recordedAt).1.metrics name).getD initialMetrics).count =
        ((pm.metrics name).getD initialMetrics).count + 1 ∧
      (((measureOperation pm name outcome duration memoryDelta startTime
          recordedAt).1.metrics name).getD initialMetrics).successCount =
        ((pm.metrics name).getD initialMetrics).successCount +
          (if isOk outcome then 1 else 0) ∧
      (((measureOperation pm name outcome duration memoryDelta startTime
          recordedAt).1.metrics name).getD initialMetrics).failureCount =
        ((pm.metrics name).getD initialMetrics).failureCount +
          (if isOk outcome then 0 else 1) ∧
      (((measureOperation pm name outcome duration memoryDelta startTime
          recordedAt).1.metrics name).getD initialMetrics).lastExecuted =
        startTime := by
  intro α pm name outcome duration memoryDelta startTime recordedAt
  have hist : ∀ (rec : PMRecord),
      ∃ k ≤ pm.operationHistory.length,
        (if maxHistorySize < (pm.operationHistory ++ [rec]).length then
          (pm.operationHistory ++ [rec]).drop
            ((pm.operationHistory ++ [rec]).length - maxHistorySize)
        else pm.operationHistory ++ [rec]) =
          pm.operationHistory.drop k ++ [rec] := by
    intro rec
    by_cases hlen : maxHistorySize < (pm.operationHistory ++ [rec]).length
    · refine ⟨(pm.operationHistory ++ [rec]).length - maxHistorySize, ?_, ?_⟩
      · simp only [List.length_append, List.length_singleton, maxHistorySize] at hlen ⊢
        omega
      · rw [if_pos hlen, List.drop_append_of_le_length]
        simp only [List.length_append, List.length_singleton, maxHistorySize] at hlen ⊢
        omega
    · exact ⟨0, Nat.zero_le _, by rw [if_neg hlen, List.drop_zero]⟩
  cases outcome with
  | ok v =>
    refine ⟨rfl, ?_, ?_, ?_, ?_, ?_⟩
    · simpa [measureOperation, recordOperation, updateAggregatedMetrics,
        isOk, errOf] using hist ⟨name, duration, memoryDelta, true, none, recordedAt⟩
    all_goals
      simp [measureOperation, recordOperation, updateAggregatedMetrics, isOk]
  | error e =>
    refine ⟨rfl, ?_, ?_, ?_, ?_, ?_⟩
    · simpa [measureOperation, recordOperation, updateAggregatedMetrics,
        isOk, errOf] using hist ⟨name, duration, memoryDelta, false, some e, recordedAt⟩
    all_goals
      simp [measureOperation, recordOperation, updateAggregatedMetrics, isOk]

end ChromeMnemonic

namespace ChromeMnemonic

open AIService

/-- Claim C1: in every settled execution of the work `withAISession`
submits to the queue — admitted straight away or after a rate-limit
sleep, succeeding, failing at session creation, or failing in the
callback (which is also how a queue-level timeout surfaces once the work
settles) — the session is destroyed exactly once whenever one was
acquired and never otherwise, so no path leaks a session or destroys one
twice; and every `RateLimiter.executeRequest` run performs the completion
bookkeeping (the `finally` decrement) exactly once, on the success path
and on the failure path alike. -/
theorem C1_session_destroyed_once_completion_once :
    (∀ (α : Type) (admissible : Bool) (createResult : Except String Unit)
       (callbackResult : Except String α),
      ((withAISessionRun admissible createResult callbackResult).1.count
          .sessionDestroyed = if isOk createResult then 1 else 0) ∧
      ((withAISessionRun admissible createResult callbackResult).1.count
          .sessionCreated =
        (withAISessionRun admissible createResult callbackResult).1.count
          .sessionDestroyed)) ∧
    (∀ (α : Type) (outcome : Except String α),
      (executeRequestEvents outcome).1.count .completionRecorded = 1 ∧
      (executeRequestEvents outcome).1.count .admissionRecorded = 1) := by
  constructor
  · intro α admissible createResult callbackResult
    cases admissible <;> cases createResult <;> cases callbackResult <;>
      simp [withAISessionRun, isOk, List.count_cons, List.count_append]
  · intro α outcome
    cases outcome <;> simp [executeRequestEvents, List.count_cons]

end ChromeMnemonic
